import Mathlib

/-!
Verification development for the File-Convertzz repository.

The repository contains two near-duplicate implementations of the same
browser file-conversion tool:

* `src/src/App.jsx` — the radio-select variant; definitions below carry the
  suffix `App`.
* `src/unnamed/part_000` — checkbox variants (two components in one file);
  definitions below carry the suffix `P0`.

The JavaScript functions are shallowly embedded here: strings are handled
as `List Char`, JavaScript `Set` objects (which preserve insertion order)
as duplicate-free `List Int`, `parseInt(s, 10)` as an `Option Int`
(returning `none` where JavaScript yields `NaN`), and the browser side
effects (`saveAs`, `alert`) as an explicit result type recording which
files would be saved or which message would be alerted.
-/

/-! ## JavaScript string primitives -/

/-- Whitespace characters trimmed by JavaScript `trim()` (ASCII subset;
the tokens appearing in this development contain only plain spaces). -/
def isJsSpace (c : Char) : Bool :=
  c = ' ' || c = '\t' || c = '\n' || c = '\r'

/-- JavaScript `String.prototype.trim`. -/
def jsTrim (cs : List Char) : List Char :=
  ((cs.dropWhile isJsSpace).reverse.dropWhile isJsSpace).reverse

/-- JavaScript `String.prototype.split` with a single-character separator:
`"".split(',')` is `[""]`, and separators at the ends produce empty
fields. -/
def jsSplit (sep : Char) : List Char → List (List Char)
  | [] => [[]]
  | c :: rest =>
    let r := jsSplit sep rest
    if c = sep then [] :: r
    else
      match r with
      | t :: ts => (c :: t) :: ts
      | [] => [[c]]

/-- Value of the maximal leading digit run; `none` when the first
character is not a digit (JavaScript `parseInt` yields `NaN` there). -/
def leadDigits (cs : List Char) : Option Nat :=
  let ds := cs.takeWhile Char.isDigit
  if ds = [] then none
  else some (ds.foldl (fun a c => a * 10 + (c.toNat - 48)) 0)

/-- JavaScript `parseInt(s, 10)`: skip leading whitespace, optional sign,
then the leading digit run (trailing garbage ignored); `NaN` — modelled
as `none` — when no digits follow. -/
def parseIntJS (cs : List Char) : Option Int :=
  match cs.dropWhile isJsSpace with
  | '-' :: rest => (leadDigits rest).map (fun n => -(n : Int))
  | '+' :: rest => (leadDigits rest).map (fun n => (n : Int))
  | rest => (leadDigits rest).map (fun n => (n : Int))

/-- JavaScript `Set.prototype.add` on an insertion-ordered set
represented as a duplicate-free list. -/
def jsAdd (s : List Int) (x : Int) : List Int :=
  if x ∈ s then s else s ++ [x]

/-! ## The page-exclusion parsers (`excludePdfPages` in both variants) -/

/-- One iteration pass of the JavaScript loop
`for (let i = start; i <= end; i++) if (1 <= i && i <= total) add(i-1)`,
with the iteration count supplied as fuel. -/
def loopEx (total : Int) : Nat → Int → List Int → List Int
  | 0, _, s => s
  | fuel + 1, i, s =>
    loopEx total fuel (i + 1) (if 0 < i ∧ i ≤ total then jsAdd s (i - 1) else s)

/-- The exclusion loop from `st` to `en` inclusive: it executes
`max 0 (en - st + 1)` times starting at `st`, exactly like the
JavaScript `for` loop (a `NaN` bound is handled by the callers, which
only reach the loop when both endpoints parsed). -/
def runLoop (total st en : Int) (s : List Int) : List Int :=
  loopEx total (en + 1 - st).toNat st s

/-- Token step of `excludePdfPages` in `src/src/App.jsx` (lines 86–97):
trim the token; on a dash, destructure the first two `parseInt` results
as `start`/`end` and run the ascending loop (which never runs when either
endpoint is `NaN`, since every `NaN` comparison is false); otherwise add
the single page when `pageNum > 0 && pageNum <= totalPages`. -/
def stepApp (total : Int) (s : List Int) (raw : List Char) : List Int :=
  let part := jsTrim raw
  if '-' ∈ part then
    match (jsSplit '-' part).map parseIntJS with
    | some st :: some en :: _ => runLoop total st en s
    | _ => s
  else
    match parseIntJS part with
    | some n => if 0 < n ∧ n ≤ total then jsAdd s (n - 1) else s
    | none => s

/-- The accumulated exclusion set of `excludePdfPages` in
`src/src/App.jsx`: `excludeSpec.split(',')` processed by `stepApp`
(trimming happens inside the step, empty tokens fall through as `NaN`). -/
def excludeSetApp (spec : String) (total : Int) : List Int :=
  (jsSplit ',' spec.data).foldl (stepApp total) []

/-- Token step of `excludePdfPages` in `src/unnamed/part_000`
(lines 250–260): on a dash the endpoints are normalized with
`Math.min` / `Math.max` (which propagate `NaN`, so the loop never runs
when either endpoint fails to parse); otherwise the single page is added
when `!isNaN(n) && n >= 1 && n <= total`. -/
def stepP0 (total : Int) (s : List Int) (part : List Char) : List Int :=
  if '-' ∈ part then
    match (jsSplit '-' part).map parseIntJS with
    | some a :: some b :: _ => runLoop total (min a b) (max a b) s
    | _ => s
  else
    match parseIntJS part with
    | some n => if 1 ≤ n ∧ n ≤ total then jsAdd s (n - 1) else s
    | none => s

/-- The accumulated exclusion set of `excludePdfPages` in
`src/unnamed/part_000`: `excludeSpec.split(',').map(trim).filter(Boolean)`
processed by `stepP0`. -/
def excludeSetP0 (spec : String) (total : Int) : List Int :=
  (((jsSplit ',' spec.data).map jsTrim).filter (fun t => t ≠ [])).foldl
    (stepP0 total) []

/-- The page indices copied into the output document by
`excludePdfPages` in `src/src/App.jsx` (lines 100–106): every index of
the source document not in the exclusion set, in order. -/
def keepPagesApp (spec : String) (total : Nat) : List Nat :=
  (List.range total).filter
    (fun i => decide ((i : Int) ∉ excludeSetApp spec (total : Int)))

/-- The `keep` list built by `excludePdfPages` in `src/unnamed/part_000`
(lines 261–262): `for (i = 0; i < total; i++) if (!exclude.has(i)) keep.push(i)`. -/
def keepPagesP0 (spec : String) (total : Nat) : List Nat :=
  (List.range total).filter
    (fun i => decide ((i : Int) ∉ excludeSetP0 spec (total : Int)))

/-! ## File queue, selection, and action dispatch -/

/-- A queued file as the embedding sees it: the `name` and declared
media-`type` strings of a browser `File` object (`sizeBytes` and content
are irrelevant to the claims). -/
structure JFile where
  name : String
  type : String
deriving DecidableEq

/-- `selected.map(i => files[i]).filter(Boolean)` — the selected files,
with out-of-range indices dropped. -/
def selFilesOf (files : List JFile) (selected : List Nat) : List JFile :=
  (selected.map (fun i => files.get? i)).reduceOption

/-- `files.filter(f => f.type === 'application/pdf')`. -/
def pdfFilesOf (files : List JFile) : List JFile :=
  files.filter (fun f => f.type = "application/pdf")

/-- Character-list test that `pre` is a leading segment of `cs`
(JavaScript `String.prototype.startsWith`). -/
def leadsWith : List Char → List Char → Bool
  | [], _ => true
  | _ :: _, [] => false
  | a :: as, b :: bs => a = b && leadsWith as bs

/-- `f.type.startsWith('image/')`. -/
def isImageApp (f : JFile) : Bool :=
  leadsWith "image/".data f.type.data

/-- `['image/png', 'image/jpeg'].includes(f.type)` — the stricter image
test used by the `part_000` variant. -/
def isImageP0 (f : JFile) : Bool :=
  f.type = "image/png" || f.type = "image/jpeg"

/-- Outcome of one UI action: either the list of filenames handed to
`saveAs` (in order), or the message handed to `alert`. -/
inductive ActionResult where
  | saved (outs : List String)
  | alert (msg : String)
deriving DecidableEq

/-- Outcome of the merge action: the exact input files merged plus the
saved filename, or the alert message. -/
inductive MergeResult where
  | ok (inputs : List JFile) (outName : String)
  | err (msg : String)
deriving DecidableEq

/-! ### Output filenames -/

/-- Remove the first occurrence of `pat` from `cs`
(JavaScript `str.replace('.pdf', '')` removes only the first occurrence). -/
def removeFirst (pat : List Char) : List Char → List Char
  | [] => []
  | c :: rest =>
    if (c :: rest).take pat.length = pat then (c :: rest).drop pat.length
    else c :: removeFirst pat rest

/-- `name.replace('.pdf', '')` as used for the PDF output names in
`src/src/App.jsx`. -/
def dropPdfOnce (name : String) : String :=
  String.mk (removeFirst ".pdf".data name.data)

/-- `name.replace(/\.[^/.]+$/, "")`: strip a final extension — a dot
followed by one or more characters none of which is a dot or a slash
(`src/src/App.jsx` line 146). -/
def stripExtJS (name : String) : String :=
  let rev := name.data.reverse
  let ext := rev.takeWhile (fun c => c ≠ '.' ∧ c ≠ '/')
  match rev.drop ext.length with
  | '.' :: rest => if ext = [] then name else String.mk rest.reverse
  | _ => name

/-- Output name of the format-conversion action in `src/src/App.jsx`
(line 146): extension stripped, new extension appended. -/
def convertSaveNameApp (name newExt : String) : String :=
  stripExtJS name ++ newExt

/-- Output name for page `page` of the PDF-to-images action in
`src/src/App.jsx` (line 162). -/
def pdfPageNameApp (name : String) (page : Nat) : String :=
  dropPdfOnce name ++ "-page-" ++ toString page ++ ".jpg"

/-- Output name of the exclude-pages action in `src/src/App.jsx`
(line 181). -/
def excludeSaveNameApp (name : String) : String :=
  dropPdfOnce name ++ "-split.pdf"

/-! ### `src/src/App.jsx` `handleAction` (per action case) -/

/-- The `to_png` / `to_jpeg` case of `handleAction` (lines 139–148): after
the empty-selection guard, every selected file whose type starts with
`image/` is converted and saved; when none does, the loop body simply
never runs and the action completes with no save and no alert. -/
def convertFormatApp (newExt : String) (files : List JFile)
    (selected : List Nat) : ActionResult :=
  let selFiles := selFilesOf files selected
  if selFiles.length = 0 then .alert "Please select a file first!"
  else .saved ((selFiles.filter isImageApp).map
    (fun f => convertSaveNameApp f.name newExt))

/-- The `images_to_pdf` case of `handleAction` (lines 150–158). -/
def imagesToPdfApp (files : List JFile) (selected : List Nat) : ActionResult :=
  let selFiles := selFilesOf files selected
  if selFiles.length = 0 then .alert "Please select a file first!"
  else
    let imageFiles := selFiles.filter isImageApp
    if imageFiles.length > 0 then .saved ["converted.pdf"]
    else .alert "Please select image files for this action."

/-- The `pdf_to_jpeg` case of `handleAction` (lines 159–166); `numPages`
models the page count reported by the external PDF library, and
`pdfToImages` renders pages `1 .. numPages` in order. -/
def pdfToJpegApp (files : List JFile) (selected : List Nat)
    (numPages : Nat) : ActionResult :=
  match selFilesOf files selected with
  | [] => .alert "Please select a file first!"
  | file :: _ =>
    if file.type = "application/pdf" then
      .saved ((List.range numPages).map (fun i => pdfPageNameApp file.name (i + 1)))
    else .alert "Please select a PDF file for this action."

/-- The `merge_pdfs` case of `handleAction` (lines 167–175): after the
empty-selection guard it filters the **whole queue** for PDFs and merges
them all when there are more than one. -/
def handleMergeApp (files : List JFile) (selected : List Nat) : MergeResult :=
  let selFiles := selFilesOf files selected
  if selFiles.length = 0 then .err "Please select a file first!"
  else
    let pdfFiles := pdfFilesOf files
    if pdfFiles.length > 1 then .ok pdfFiles "merged.pdf"
    else .err "Please add at least two PDF files to the queue for merging."

/-- The `exclude_pages` case of `handleAction` (lines 176–186), after the
user entered a (non-empty) spec at the prompt. -/
def excludePagesActionApp (files : List JFile) (selected : List Nat) :
    ActionResult :=
  match selFilesOf files selected with
  | [] => .alert "Please select a file first!"
  | file :: _ =>
    if file.type = "application/pdf" then
      .saved [excludeSaveNameApp file.name]
    else .alert "Please select a PDF file for this action."

/-! ### `src/unnamed/part_000` `ConversionOptions` callbacks -/

/-- `convertTo` in `src/unnamed/part_000` (lines 394–403), save names
omitted (only the success/alert outcome is needed here, recorded with one
placeholder name per converted image). -/
def convertToP0 (files : List JFile) (selected : List Nat) : ActionResult :=
  let images := (selFilesOf files selected).filter isImageP0
  if images.length = 0 then .alert "Select PNG or JPEG images to convert"
  else .saved (images.map (fun f => f.name))

/-- `makePdf` in `src/unnamed/part_000` (lines 405–410): the merged PDF
is saved under the fixed name `images.pdf`. -/
def makePdfP0 (files : List JFile) (selected : List Nat) : ActionResult :=
  let images := (selFilesOf files selected).filter isImageP0
  if images.length = 0 then .alert "Select images to convert to PDF"
  else .saved ["images.pdf"]

/-- `pdfToJpegs` in `src/unnamed/part_000` (lines 412–417): page `N` is
saved as `page-N.jpg` (the source filename does not appear). -/
def pdfToJpegsP0 (files : List JFile) (selected : List Nat)
    (numPages : Nat) : ActionResult :=
  let pdfs := (selFilesOf files selected).filter
    (fun f => f.type = "application/pdf")
  if pdfs.length ≠ 1 then .alert "Select exactly one PDF to convert to images"
  else .saved ((List.range numPages).map
    (fun i => "page-" ++ toString (i + 1) ++ ".jpg"))

/-- `merge` in `src/unnamed/part_000` (lines 419–424): unlike the
`App.jsx` variant it filters only the **selected** files for PDFs. -/
def mergeP0 (files : List JFile) (selected : List Nat) : MergeResult :=
  let pdfs := (selFilesOf files selected).filter
    (fun f => f.type = "application/pdf")
  if pdfs.length < 2 then .err "Select at least two PDFs to merge"
  else .ok pdfs "merged.pdf"

/-- `excludePages` in `src/unnamed/part_000` (lines 426–433), after the
user entered a (non-empty) spec: the output is saved under the fixed
name `excluded.pdf`. -/
def excludePagesActionP0 (files : List JFile) (selected : List Nat) :
    ActionResult :=
  let pdfs := (selFilesOf files selected).filter
    (fun f => f.type = "application/pdf")
  if pdfs.length ≠ 1 then .alert "Select exactly one PDF to split/exclude pages"
  else .saved ["excluded.pdf"]

/-! ### Queue mutation and selection maintenance -/

/-- `files.filter((_, i) => i !== idx)` — used by the remove buttons of
both variants. -/
def removeFileAt (files : List JFile) (idx : Nat) : List JFile :=
  (files.enum.filter (fun p => p.1 ≠ idx)).map Prod.snd

/-- Selection update on removal in `src/src/App.jsx` (line 266):
`selected.filter(i => i !== idx).map(i => i > idx ? i - 1 : i)`. -/
def removeSelApp (selected : List Nat) (idx : Nat) : List Nat :=
  (selected.filter (fun i => i ≠ idx)).map (fun i => if idx < i then i - 1 else i)

/-- Selection update on removal in `src/unnamed/part_000` (line 114):
`selected.filter(i => i !== idx)` — no renumbering. -/
def removeSelP0 (selected : List Nat) (idx : Nat) : List Nat :=
  selected.filter (fun i => i ≠ idx)

/-- `onFiles` in `src/src/App.jsx` (lines 118–126): append the new files;
when the previous queue was empty and the updated queue is not, the
selection becomes `[0]`. -/
def onFilesApp (prev : List JFile) (sel : List Nat) (newFiles : List JFile) :
    List JFile × List Nat :=
  let updatedFiles := prev ++ newFiles
  (updatedFiles,
    if prev.length = 0 ∧ updatedFiles.length > 0 then [0] else sel)

/-! ### Concrete sample files used in witnesses and counterexamples -/

/-- A sample PNG image file. -/
def imgA : JFile := ⟨"a.png", "image/png"⟩

/-- A sample PDF file. -/
def pdfA : JFile := ⟨"a.pdf", "application/pdf"⟩

/-- A second sample PDF file. -/
def pdfB : JFile := ⟨"b.pdf", "application/pdf"⟩

/-- A third sample PDF file. -/
def pdfC : JFile := ⟨"c.pdf", "application/pdf"⟩

/-- A sample PDF file named `doc.pdf`. -/
def docPdf : JFile := ⟨"doc.pdf", "application/pdf"⟩

/-! ## Parser lemmas -/

theorem mem_jsAdd {s : List Int} {x k : Int} (h : k ∈ jsAdd s x) :
    k ∈ s ∨ k = x := by
  unfold jsAdd at h
  split at h
  · exact Or.inl h
  · rcases List.mem_append.mp h with h1 | h1
    · exact Or.inl h1
    · exact Or.inr (List.mem_singleton.mp h1)

theorem nodup_jsAdd {s : List Int} (x : Int) (h : s.Nodup) :
    (jsAdd s x).Nodup := by
  unfold jsAdd
  split
  · exact h
  · rename_i hx
    simp [List.nodup_append, h, hx]

theorem loopEx_mem {total : Int} :
    ∀ (fuel : Nat) (i : Int) (s : List Int) (k : Int),
      k ∈ loopEx total fuel i s → k ∈ s ∨ (0 ≤ k ∧ k < total) := by
  intro fuel
  induction fuel with
  | zero => intro i s k hk; exact Or.inl hk
  | succ n ih =>
    intro i s k hk
    rcases ih (i + 1) _ k hk with h1 | h1
    · split at h1
      · rcases mem_jsAdd h1 with h2 | h2
        · exact Or.inl h2
        · rename_i hcond
          right
          subst h2
          omega
      · exact Or.inl h1
    · exact Or.inr h1

theorem loopEx_nodup {total : Int} :
    ∀ (fuel : Nat) (i : Int) (s : List Int), s.Nodup →
      (loopEx total fuel i s).Nodup := by
  intro fuel
  induction fuel with
  | zero => intro i s hs; exact hs
  | succ n ih =>
    intro i s hs
    apply ih
    split
    · exact nodup_jsAdd _ hs
    · exact hs

theorem stepApp_mem {total : Int} {s : List Int} {t : List Char} {k : Int}
    (h : k ∈ stepApp total s t) : k ∈ s ∨ (0 ≤ k ∧ k < total) := by
  unfold stepApp at h
  dsimp only at h
  split at h
  · split at h
    · exact loopEx_mem _ _ _ _ h
    · exact Or.inl h
  · split at h
    · split at h
      · rcases mem_jsAdd h with h1 | h1
        · exact Or.inl h1
        · rename_i n hcond
          right
          subst h1
          omega
      · exact Or.inl h
    · exact Or.inl h

theorem stepP0_mem {total : Int} {s : List Int} {t : List Char} {k : Int}
    (h : k ∈ stepP0 total s t) : k ∈ s ∨ (0 ≤ k ∧ k < total) := by
  unfold stepP0 at h
  split at h
  · split at h
    · exact loopEx_mem _ _ _ _ h
    · exact Or.inl h
  · split at h
    · split at h
      · rcases mem_jsAdd h with h1 | h1
        · exact Or.inl h1
        · rename_i n hcond
          right
          subst h1
          omega
      · exact Or.inl h
    · exact Or.inl h

theorem stepApp_nodup {total : Int} {s : List Int} (t : List Char)
    (hs : s.Nodup) : (stepApp total s t).Nodup := by
  unfold stepApp
  dsimp only
  split
  · split
    · exact loopEx_nodup _ _ _ hs
    · exact hs
  · split
    · split
      · exact nodup_jsAdd _ hs
      · exact hs
    · exact hs

theorem stepP0_nodup {total : Int} {s : List Int} (t : List Char)
    (hs : s.Nodup) : (stepP0 total s t).Nodup := by
  unfold stepP0
  split
  · split
    · exact loopEx_nodup _ _ _ hs
    · exact hs
  · split
    · split
      · exact nodup_jsAdd _ hs
      · exact hs
    · exact hs

theorem foldl_mem_bound {P : Int → Prop}
    (f : List Int → List Char → List Int)
    (hf : ∀ s t k, k ∈ f s t → k ∈ s ∨ P k) :
    ∀ (ts : List (List Char)) (s : List Int) (k : Int),
      k ∈ ts.foldl f s → k ∈ s ∨ P k := by
  intro ts
  induction ts with
  | nil => intro s k hk; exact Or.inl hk
  | cons t ts ih =>
    intro s k hk
    rcases ih (f s t) k hk with h1 | h1
    · exact hf s t k h1
    · exact Or.inr h1

theorem foldl_nodup (f : List Int → List Char → List Int)
    (hf : ∀ s t, s.Nodup → (f s t).Nodup) :
    ∀ (ts : List (List Char)) (s : List Int), s.Nodup →
      (ts.foldl f s).Nodup := by
  intro ts
  induction ts with
  | nil => intro s hs; exact hs
  | cons t ts ih => intro s hs; exact ih _ (hf s t hs)

theorem excludeSetApp_mem {spec : String} {total : Int} {k : Int}
    (h : k ∈ excludeSetApp spec total) : 0 ≤ k ∧ k < total := by
  rcases foldl_mem_bound (stepApp total)
      (fun s t k hk => stepApp_mem hk) _ _ _ h with h1 | h1
  · simp at h1
  · exact h1

theorem excludeSetP0_mem {spec : String} {total : Int} {k : Int}
    (h : k ∈ excludeSetP0 spec total) : 0 ≤ k ∧ k < total := by
  rcases foldl_mem_bound (stepP0 total)
      (fun s t k hk => stepP0_mem hk) _ _ _ h with h1 | h1
  · simp at h1
  · exact h1

theorem excludeSetApp_nodup (spec : String) (total : Int) :
    (excludeSetApp spec total).Nodup :=
  foldl_nodup (stepApp total) (fun _ t hs => stepApp_nodup t hs) _ _
    List.nodup_nil

theorem excludeSetP0_nodup (spec : String) (total : Int) :
    (excludeSetP0 spec total).Nodup :=
  foldl_nodup (stepP0 total) (fun _ t hs => stepP0_nodup t hs) _ _
    List.nodup_nil

/-- A duplicate-free list of integers inside `[0, total)` whose length is
`total` contains every index below `total`. -/
theorem full_list_covers (S : List Int) (total : Nat) (hnd : S.Nodup)
    (hb : ∀ k ∈ S, 0 ≤ k ∧ k < (total : Int)) (hlen : S.length = total) :
    ∀ i : Nat, i < total → (i : Int) ∈ S := by
  intro i hi
  have hsub : S.toFinset ⊆ Finset.Ico (0 : Int) (total : Int) := by
    intro k hk
    have := hb k (List.mem_toFinset.mp hk)
    simpa [Finset.mem_Ico] using this
  have hcard : (Finset.Ico (0 : Int) (total : Int)).card ≤ S.toFinset.card := by
    rw [List.toFinset_card_of_nodup hnd, hlen, Int.card_Ico]
    simp
  have heq := Finset.eq_of_subset_of_card_le hsub hcard
  have : (i : Int) ∈ S.toFinset := by
    rw [heq]
    simp [Finset.mem_Ico]
    exact_mod_cast hi
  exact List.mem_toFinset.mp this

/-! ## Removal lemmas -/

theorem enumFrom_filt_keepAll {α : Type} (l : List α) :
    ∀ (m j : Nat), j < m →
      (((List.enumFrom m l).filter (fun p => p.1 ≠ j)).map Prod.snd) = l := by
  induction l with
  | nil => intro m j hj; rfl
  | cons a l ih =>
    intro m j hj
    have hne : m ≠ j := by omega
    simp only [List.enumFrom, List.filter_cons, decide_eq_true_eq]
    rw [if_pos hne, List.map_cons, ih (m + 1) j (by omega)]

theorem enumFrom_filt_remove {α : Type} (l : List α) :
    ∀ (n i : Nat),
      (((List.enumFrom n l).filter (fun p => p.1 ≠ n + i)).map Prod.snd) =
        l.eraseIdx i := by
  induction l with
  | nil => intro n i; rfl
  | cons a l ih =>
    intro n i
    cases i with
    | zero =>
      have hne : ¬ (n ≠ n + 0) := by omega
      simp only [List.enumFrom, List.filter_cons, decide_eq_true_eq]
      rw [if_neg hne]
      exact enumFrom_filt_keepAll l (n + 1) (n + 0) (by omega)
    | succ k =>
      have hne : n ≠ n + (k + 1) := by omega
      simp only [List.enumFrom, List.filter_cons, decide_eq_true_eq]
      rw [if_pos hne]
      have hrw : n + (k + 1) = (n + 1) + k := by omega
      simp only [List.map, List.eraseIdx]
      rw [hrw, ih (n + 1) k]

theorem removeFileAt_eq_eraseIdx (files : List JFile) (idx : Nat) :
    removeFileAt files idx = files.eraseIdx idx := by
  have := enumFrom_filt_remove files 0 idx
  simpa [removeFileAt, List.enum] using this

theorem eraseIdx_length {α : Type} :
    ∀ (l : List α) (i : Nat), i < l.length →
      (l.eraseIdx i).length = l.length - 1 := by
  intro l
  induction l with
  | nil => intro i hi; simp at hi
  | cons a l ih =>
    intro i hi
    cases i with
    | zero => simp [List.eraseIdx]
    | succ k =>
      simp only [List.eraseIdx, List.length_cons]
      rw [ih k (by simpa using Nat.lt_of_succ_lt_succ hi)]
      simp at hi
      omega

theorem removeSelApp_mem_iff (sel : List Nat) (idx k : Nat) :
    k ∈ removeSelApp sel idx ↔
      ∃ j, (j ∈ sel ∧ j ≠ idx) ∧ (if idx < j then j - 1 else j) = k := by
  simp [removeSelApp, List.mem_map, List.mem_filter]

/-! ## Claim theorems -/

/-- C1 (counterexample). The spec demands
`ValidationError("cannot exclude all pages")` when the accumulated set
covers every page, and asserts the parsed set never equals the full page
range. In the code the parsed set does equal the full range on the spec
string `"1,2,3"` with 3 pages — in both variants — and the kept-page list
of the output document is empty: an empty document is produced with no
error. -/
theorem c1_counterexample :
    excludeSetApp "1,2,3" 3 = [0, 1, 2] ∧
    excludeSetP0 "1,2,3" 3 = [0, 1, 2] ∧
    keepPagesApp "1,2,3" 3 = [] ∧
    keepPagesP0 "1,2,3" 3 = [] := by
  refine ⟨by decide, by decide, by decide, by decide⟩

/-- C1 (amended). `excludePdfPages` performs no full-exclusion validation
in either variant: whenever the accumulated exclusion set covers all
`totalPages` pages, the operation silently keeps no page at all — the
kept-page list of the output document is empty — instead of failing. -/
theorem c1_amended (spec : String) (total : Nat) :
    ((excludeSetApp spec (total : Int)).length = total →
      keepPagesApp spec total = []) ∧
    ((excludeSetP0 spec (total : Int)).length = total →
      keepPagesP0 spec total = []) := by
  constructor
  · intro hlen
    have hcov := full_list_covers (excludeSetApp spec (total : Int)) total
      (excludeSetApp_nodup spec (total : Int))
      (fun k hk => excludeSetApp_mem hk) hlen
    unfold keepPagesApp
    rw [List.filter_eq_nil_iff]
    intro i hi
    simp only [decide_eq_true_eq, Decidable.not_not]
    exact hcov i (List.mem_range.mp hi)
  · intro hlen
    have hcov := full_list_covers (excludeSetP0 spec (total : Int)) total
      (excludeSetP0_nodup spec (total : Int))
      (fun k hk => excludeSetP0_mem hk) hlen
    unfold keepPagesP0
    rw [List.filter_eq_nil_iff]
    intro i hi
    simp only [decide_eq_true_eq, Decidable.not_not]
    exact hcov i (List.mem_range.mp hi)

/-- C1 (witness for the amended theorem): the spec string `"1,2,3"` on a
3-page document accumulates all three pages, and the operation then keeps
no page. -/
theorem c1_witness :
    (excludeSetApp "1,2,3" (3 : Nat)).length = 3 ∧
    keepPagesApp "1,2,3" 3 = [] :=
  ⟨by decide, (c1_amended "1,2,3" 3).1 (by decide)⟩

/-- C2 (counterexample). The spec demands `ValidationError` on
unparsable tokens, and the claim names `parseExclusions("abc", 5)` as a
failing input. In both variants the token `"abc"` is silently ignored:
the parse completes with the empty exclusion set, and the output document
keeps every page unchanged. -/
theorem c2_counterexample :
    excludeSetApp "abc" 5 = [] ∧
    excludeSetP0 "abc" 5 = [] ∧
    keepPagesApp "abc" 5 = [0, 1, 2, 3, 4] := by
  refine ⟨by decide, by decide, by decide⟩

/-- C2 (amended). `excludePdfPages` never raises a malformed-token error
in either variant: a dash-free token whose `parseInt` is `NaN`
contributes nothing to the set, a dashed token with an unparsable
endpoint contributes nothing (every `NaN` comparison is false, so the
range loop never runs), and the remaining tokens are still processed
normally — e.g. `"1-x,3"` yields `{2}`. -/
theorem c2_amended (total : Int) (s : List Int) (t : List Char) :
    (¬ '-' ∈ jsTrim t → parseIntJS (jsTrim t) = none →
      stepApp total s t = s) ∧
    (¬ '-' ∈ t → parseIntJS t = none → stepP0 total s t = s) ∧
    excludeSetApp "1-x,3" 5 = [2] ∧
    excludeSetP0 "1-x,3" 5 = [2] := by
  refine ⟨?_, ?_, by decide, by decide⟩
  · intro hdash hparse
    unfold stepApp
    dsimp only
    rw [if_neg hdash, hparse]
  · intro hdash hparse
    unfold stepP0
    rw [if_neg hdash, hparse]

/-- C2 (witness for the amended theorem): the token `"abc"` is dash-free,
fails to parse, and is a no-op for both variants. -/
theorem c2_witness :
    stepApp 5 [] "abc".data = [] ∧ stepP0 5 [] "abc".data = [] :=
  ⟨(c2_amended 5 [] "abc".data).1 (by decide) (by decide),
   (c2_amended 5 [] "abc".data).2.1 (by decide) (by decide)⟩

/-- C3 (counterexample). The claim states that both variants normalize
reversed range endpoints, with `parseExclusions("6-4", 10) = {3, 4, 5}`.
In the `src/src/App.jsx` variant the loop `for (i = start; i <= end)`
runs from 6 down to nothing, so `"6-4"` yields the empty set, not
`{3, 4, 5}` and not the value of `"4-6"`. -/
theorem c3_counterexample :
    excludeSetApp "6-4" 10 = [] ∧
    excludeSetApp "4-6" 10 = [3, 4, 5] := by
  refine ⟨by decide, by decide⟩

/-- C3 (amended). Only the `src/unnamed/part_000` variant normalizes
reversed endpoints (`Math.min` / `Math.max`): there `"6-4"` and `"4-6"`
parse identically for every page count, giving `{3, 4, 5}` on 10 pages;
in the `src/src/App.jsx` variant a reversed range contributes nothing,
so `"6-4"` yields the empty set for every page count. -/
theorem c3_amended :
    (∀ total : Int, excludeSetP0 "6-4" total = excludeSetP0 "4-6" total) ∧
    excludeSetP0 "6-4" 10 = [3, 4, 5] ∧
    (∀ total : Int, excludeSetApp "6-4" total = []) := by
  refine ⟨fun total => rfl, by decide, fun total => rfl⟩

/-- C6 (confirmed). Every member of the exclusion set lies in
`[0, totalPages)` in both variants — a page number is added (as `n - 1`)
only when `1 ≤ n ≤ totalPages` — and out-of-range numbers are silently
dropped rather than raising an error: `"7,2"` on 5 pages yields `{1}`. -/
theorem c6_range_safety :
    (∀ (spec : String) (total k : Int),
      (k ∈ excludeSetApp spec total → 0 ≤ k ∧ k < total) ∧
      (k ∈ excludeSetP0 spec total → 0 ≤ k ∧ k < total)) ∧
    excludeSetApp "7,2" 5 = [1] ∧
    excludeSetP0 "7,2" 5 = [1] := by
  refine ⟨fun spec total k =>
    ⟨fun h => excludeSetApp_mem h, fun h => excludeSetP0_mem h⟩,
    by decide, by decide⟩

/-- C6 (witness): page 1 of a 5-page document is excluded by the spec
`"1"` as index 0, and the theorem places that index inside `[0, 5)`. -/
theorem c6_witness : (0 : Int) ≤ 0 ∧ (0 : Int) < 5 :=
  (c6_range_safety.1 "1" 5 0).1 (by decide)

/-- C7 (confirmed). The spec string is split on commas with tokens
trimmed, an empty token contributes nothing (the `part_000` variant
filters them out, and in the `App.jsx` variant an empty token is a no-op
step), and accumulation has set semantics (the result list is
duplicate-free, and a repeated page is added once). In particular
`parseExclusions("1,4-6", 10) = {0, 3, 4, 5}` and
`parseExclusions("", 5) = {}` in both variants. -/
theorem c7_tokenization :
    excludeSetApp "1,4-6" 10 = [0, 3, 4, 5] ∧
    excludeSetP0 "1,4-6" 10 = [0, 3, 4, 5] ∧
    excludeSetApp "" 5 = [] ∧
    excludeSetP0 "" 5 = [] ∧
    excludeSetApp " 1 , 1,2 " 5 = [0, 1] ∧
    excludeSetP0 " 1 , 1,2 " 5 = [0, 1] ∧
    (∀ (total : Int) (s : List Int), stepApp total s [] = s) ∧
    (∀ (spec : String) (total : Int),
      (excludeSetApp spec total).Nodup ∧ (excludeSetP0 spec total).Nodup) := by
  refine ⟨by decide, by decide, by decide, by decide, by decide, by decide,
    fun total s => rfl,
    fun spec total => ⟨excludeSetApp_nodup spec total,
      excludeSetP0_nodup spec total⟩⟩

/-- C4 (counterexample). The claim says merge always takes all queued
PDFs, succeeding whenever the queue holds at least two even when the
selection holds fewer. In the `src/unnamed/part_000` variant, with three
PDFs queued and one selected, merge fails with the
need-at-least-two-PDFs alert even though the queue holds three PDFs. -/
theorem c4_counterexample :
    mergeP0 [pdfA, pdfB, pdfC] [0] = .err "Select at least two PDFs to merge" ∧
    (pdfFilesOf [pdfA, pdfB, pdfC]).length = 3 := by
  refine ⟨by decide, by decide⟩

/-- C4 (amended). Only the `src/src/App.jsx` variant merges the whole
queue, and only after its empty-selection guard passes: with a non-empty
resolved selection, merge succeeds over exactly the queued PDFs when
there are at least two of them and alerts otherwise. The
`src/unnamed/part_000` variant instead merges exactly the **selected**
PDFs, requiring at least two of those. -/
theorem c4_amended (files : List JFile) (selected : List Nat) :
    (selFilesOf files selected ≠ [] →
      ((2 ≤ (pdfFilesOf files).length →
        handleMergeApp files selected = .ok (pdfFilesOf files) "merged.pdf") ∧
       ((pdfFilesOf files).length < 2 →
        handleMergeApp files selected =
          .err "Please add at least two PDF files to the queue for merging."))) ∧
    (2 ≤ ((selFilesOf files selected).filter
        (fun f => f.type = "application/pdf")).length →
      mergeP0 files selected =
        .ok ((selFilesOf files selected).filter
          (fun f => f.type = "application/pdf")) "merged.pdf") := by
  constructor
  · intro hne
    have hlen : ¬ (selFilesOf files selected).length = 0 := by
      simpa [List.length_eq_zero] using hne
    constructor
    · intro h2
      unfold handleMergeApp
      dsimp only
      rw [if_neg hlen, if_pos (by omega)]
    · intro h2
      unfold handleMergeApp
      dsimp only
      rw [if_neg hlen, if_neg (by omega)]
  · intro h2
    unfold mergeP0
    dsimp only
    rw [if_neg (by omega)]

/-- C4 (witness for the amended theorem): two queued PDFs with one
selected merge to exactly those two in the `App.jsx` variant, and
selecting both makes the `part_000` variant merge them too. -/
theorem c4_witness :
    handleMergeApp [pdfA, pdfB] [0] = .ok [pdfA, pdfB] "merged.pdf" ∧
    mergeP0 [pdfA, pdfB] [0, 1] = .ok [pdfA, pdfB] "merged.pdf" :=
  ⟨((c4_amended [pdfA, pdfB] [0]).1 (by decide)).1 (by decide),
   (c4_amended [pdfA, pdfB] [0, 1]).2 (by decide)⟩

/-- C5 (counterexample). The claim says removal at index `i` drops `i`
from the selection and decrements every larger selected index. The
`src/unnamed/part_000` variant (its checkbox queue component) only
filters the removed index: removing index 2 with selection `{1, 2, 3}`
leaves `{1, 3}`, not the claimed `{1, 2}`, and the stale index 3 is
out of bounds for the shrunken 3-element queue. -/
theorem c5_counterexample :
    removeSelP0 [1, 2, 3] 2 = [1, 3] ∧
    (removeFileAt [pdfA, pdfB, pdfC, imgA] 2).length = 3 ∧
    3 ∈ removeSelP0 [1, 2, 3] 2 ∧ ¬ (3 < 3) := by
  refine ⟨by decide, by decide, by decide, by decide⟩

/-- C5 (amended). The `src/src/App.jsx` variant maintains the selection
exactly as the claim describes — the removed index is dropped, larger
indices are decremented, smaller ones kept, so a valid selection stays in
bounds after removal and `{1, 2, 3}` minus index 2 is `{1, 2}` — while
the `part_000` checkbox variant only drops the removed index and may
leave stale out-of-bounds indices. -/
theorem c5_amended (files : List JFile) (sel : List Nat) (idx : Nat) :
    (∀ k, k ∈ removeSelApp sel idx ↔
      ∃ j, (j ∈ sel ∧ j ≠ idx) ∧ (if idx < j then j - 1 else j) = k) ∧
    (idx < files.length → (removeFileAt files idx).length = files.length - 1) ∧
    ((∀ j ∈ sel, j < files.length) → idx < files.length →
      ∀ k ∈ removeSelApp sel idx, k < files.length - 1) ∧
    removeSelApp [1, 2, 3] 2 = [1, 2] := by
  refine ⟨removeSelApp_mem_iff sel idx, ?_, ?_, by decide⟩
  · intro hidx
    rw [removeFileAt_eq_eraseIdx]
    exact eraseIdx_length files idx hidx
  · intro hb hidx k hk
    rcases (removeSelApp_mem_iff sel idx k).mp hk with ⟨j, ⟨hj, hne⟩, heq⟩
    have hjlen := hb j hj
    by_cases hc : idx < j
    · rw [if_pos hc] at heq
      omega
    · rw [if_neg hc] at heq
      omega

/-- C5 (witness for the amended theorem): removing index 2 from a
4-element queue with selection `{1, 2, 3}` leaves a 3-element queue, and
the renumbered index 2 (formerly 3) is still in bounds. -/
theorem c5_witness :
    (removeFileAt [pdfA, pdfB, pdfC, imgA] 2).length = 3 ∧ (2 : Nat) < 3 :=
  ⟨(c5_amended [pdfA, pdfB, pdfC, imgA] [1, 2, 3] 2).2.1 (by decide),
   (c5_amended [pdfA, pdfB, pdfC, imgA] [1, 2, 3] 2).2.2.1
     (by decide) (by decide) 2 (by decide)⟩

/-- C8 (counterexample). The claim says that with a non-empty selection
containing no image, `convertImageFormat` fails with a surfaced
selection error. In the `src/src/App.jsx` variant, selecting one PDF and
running convert-to-PNG completes silently: the conversion loop iterates
over an empty list, no file is saved and no alert is shown. -/
theorem c8_counterexample :
    selFilesOf [pdfA] [0] = [pdfA] ∧
    convertFormatApp ".png" [pdfA] [0] = .saved [] := by
  refine ⟨by decide, by decide⟩

/-- C8 (amended). When the selection resolves to files but none of them
is an image, `imagesToPdf` alerts in both variants and `part_000`'s
format conversion alerts too; only the `App.jsx` format conversion
completes silently with no output. -/
theorem c8_amended (ext : String) (files : List JFile) (sel : List Nat) :
    (selFilesOf files sel ≠ [] →
      (selFilesOf files sel).filter isImageApp = [] →
      (convertFormatApp ext files sel = .saved [] ∧
       imagesToPdfApp files sel =
         .alert "Please select image files for this action.")) ∧
    ((selFilesOf files sel).filter isImageP0 = [] →
      (convertToP0 files sel = .alert "Select PNG or JPEG images to convert" ∧
       makePdfP0 files sel = .alert "Select images to convert to PDF")) := by
  constructor
  · intro hne hnoimg
    have hlen : ¬ (selFilesOf files sel).length = 0 := by
      simpa [List.length_eq_zero] using hne
    constructor
    · unfold convertFormatApp
      dsimp only
      rw [if_neg hlen, hnoimg]
      rfl
    · unfold imagesToPdfApp
      dsimp only
      rw [if_neg hlen, hnoimg]
      rfl
  · intro hnoimg
    constructor
    · unfold convertToP0
      dsimp only
      rw [hnoimg]
      rfl
    · unfold makePdfP0
      dsimp only
      rw [hnoimg]
      rfl

/-- C8 (witness for the amended theorem): one selected PDF and no image
makes `images_to_pdf` alert in the `App.jsx` variant and `makePdf` alert
in the `part_000` variant. -/
theorem c8_witness :
    imagesToPdfApp [pdfA] [0] =
      .alert "Please select image files for this action." ∧
    makePdfP0 [pdfA] [0] = .alert "Select images to convert to PDF" :=
  ⟨((c8_amended ".png" [pdfA] [0]).1 (by decide) (by decide)).2,
   ((c8_amended ".png" [pdfA] [0]).2 (by decide)).2⟩

/-- C9 (counterexample). The claim fixes `converted.pdf` as the
images-to-PDF output name for every input, but the
`src/unnamed/part_000` variant saves its images-to-PDF output as
`images.pdf`. -/
theorem c9_counterexample :
    makePdfP0 [imgA] [0] = .saved ["images.pdf"] ∧
    ("images.pdf" : String) ≠ "converted.pdf" := by
  refine ⟨by decide, by decide⟩

/-- C9 (amended). The claimed filename contract is exactly that of the
`src/src/App.jsx` variant: extension stripped plus `.png`/`.jpg` for
format conversion, `converted.pdf`, `<name-without-.pdf>-page-<N>.jpg`,
`merged.pdf`, and `<name-without-.pdf>-split.pdf`. The
`src/unnamed/part_000` variant deviates: `images.pdf`, `page-<N>.jpg`
without the source name, and `excluded.pdf`. -/
theorem c9_amended :
    convertSaveNameApp "photo.jpeg" ".png" = "photo.png" ∧
    convertSaveNameApp "archive.tar.gz" ".jpg" = "archive.tar.jpg" ∧
    imagesToPdfApp [imgA] [0] = .saved ["converted.pdf"] ∧
    pdfToJpegApp [docPdf] [0] 3 =
      .saved ["doc-page-1.jpg", "doc-page-2.jpg", "doc-page-3.jpg"] ∧
    handleMergeApp [pdfA, pdfB] [0, 1] = .ok [pdfA, pdfB] "merged.pdf" ∧
    excludePagesActionApp [docPdf] [0] = .saved ["doc-split.pdf"] ∧
    makePdfP0 [imgA] [0] = .saved ["images.pdf"] ∧
    pdfToJpegsP0 [docPdf] [0] 2 = .saved ["page-1.jpg", "page-2.jpg"] ∧
    excludePagesActionP0 [docPdf] [0] = .saved ["excluded.pdf"] := by
  refine ⟨by decide, by decide, by decide, by decide, by decide, by decide,
    by decide, by decide, by decide⟩

/-- C10 (confirmed). In the radio-select variant (`src/src/App.jsx`
`onFiles`), adding files to an empty queue selects index 0
automatically, and adding files to a non-empty queue leaves the
selection unchanged; the queue itself becomes the old queue followed by
the new files. -/
theorem c10_auto_select (prev : List JFile) (sel : List Nat)
    (newFiles : List JFile) :
    (prev = [] → newFiles ≠ [] → (onFilesApp prev sel newFiles).2 = [0]) ∧
    (prev ≠ [] → (onFilesApp prev sel newFiles).2 = sel) ∧
    (onFilesApp prev sel newFiles).1 = prev ++ newFiles := by
  refine ⟨?_, ?_, rfl⟩
  · intro hp hn
    subst hp
    unfold onFilesApp
    dsimp only
    rw [if_pos]
    exact ⟨rfl, by simpa [List.length_pos] using hn⟩
  · intro hp
    unfold onFilesApp
    dsimp only
    rw [if_neg]
    rintro ⟨h0, _⟩
    exact hp (List.length_eq_zero.mp h0)

/-- C10 (witness): adding a file to the empty queue selects `{0}`;
adding a file to a one-element queue keeps the selection `{7}`. -/
theorem c10_witness :
    (onFilesApp [] [] [imgA]).2 = [0] ∧
    (onFilesApp [pdfA] [7] [imgA]).2 = [7] :=
  ⟨(c10_auto_select [] [] [imgA]).1 rfl (by decide),
   (c10_auto_select [pdfA] [7] [imgA]).2.1 (by decide)⟩
